import Mathlib

/-!
Shallow embedding of the `sms-sender` dispatch engine.

Source of truth:
* `src/sms_sender.py` — class `SMSSender`: sliding-window rate limiter
  (`_check_rate_limit`, `_add_timestamp`, `wait_for_rate_limit`),
  `send_single_sms`, `get_stats`, `clear_old_status`.
* `src/smsApi.py` — the Flask glue: the plain (non-rate-limited) `SMSSender`
  used by the bulk endpoint, and the `send_bulk_sms` normalization/dispatch.

Modelling conventions:
* Wall-clock time is `ℚ` (seconds).  Every call the Python code makes to
  `time.time()` consumes one element of an explicit `times : List ℚ` stream;
  an exhausted stream is reported as `diverge` (the model ran out of fuel,
  e.g. inside the unbounded polling loop).
* Python exceptions escaping a function (the `IndexError` raised by
  `self.sms_timestamps[0]` on an empty deque) are the explicit `exn`
  outcome; caught exceptions (`subprocess.TimeoutExpired`, generic
  `Exception`) are the `TransportOutcome` parameter.
* Python truthiness of optional strings/floats is modelled explicitly
  (`None`, `""` and `0` are falsy).
* Result dictionaries are records keeping the fields the engine computes;
  purely decorative fields (the ISO wall-clock string `"timestamp"`, the
  numeric formatting inside detail strings) are elided or kept as the
  static part of the message.
-/

namespace SmsSender

/-- Status tag of a dispatch result dict: `"sent"`, `"error"`, `"rate_limited"`. -/
inductive SmsStatus
  | sent
  | error
  | rateLimited
deriving DecidableEq

/-- Outcome of one invocation of the external transport
(`subprocess.run(["termux-sms-send", ...])`): normal completion,
`subprocess.TimeoutExpired`, or any other exception (with `str(e)`). -/
inductive TransportOutcome
  | success
  | timeoutExpired
  | failure (msg : String)
deriving DecidableEq

/-- One result dict produced by `SMSSender.send_single_sms`.
`rate_count` models `rate_limit_info["current_count"]` (read after the
append on the success path); fields absent from a given dict are `none`. -/
structure SmsResult where
  status : SmsStatus
  to_number : String
  message : Option String
  detail : Option String
  wait_time : Option ℚ
  duration : Option ℚ
  rate_count : Option ℕ
deriving DecidableEq

/-- The mutable state of one `SMSSender` instance (`src/sms_sender.py`):
configuration, the timestamp deque, the status dict and the counters. -/
structure SenderState where
  rate_limit : ℤ
  rate_window : ℚ
  sms_timestamps : List ℚ
  sms_status : List (String × SmsResult)
  total_sent : ℕ
  total_errors : ℕ
  rate_limited : ℕ
  start_time : ℚ
deriving DecidableEq

/-- `SMSSender.__init__(rate_limit, rate_window)`: stores both configuration
values unchecked, starts with an empty deque, empty status dict and zeroed
counters; `now` is the `datetime.now()` recorded as `stats["start_time"]`. -/
def init_sms_sender (rate_limit : ℤ) (rate_window : ℚ) (now : ℚ) : SenderState :=
  { rate_limit := rate_limit
    rate_window := rate_window
    sms_timestamps := []
    sms_status := []
    total_sent := 0
    total_errors := 0
    rate_limited := 0
    start_time := now }

/-- The eviction loop of `_check_rate_limit`:
`while self.sms_timestamps and self.sms_timestamps[0] < cutoff_time: popleft()`. -/
def evict_old (cutoff : ℚ) (s : List ℚ) : List ℚ :=
  s.dropWhile (fun x => decide (x < cutoff))

/-- `SMSSender._check_rate_limit` (src/sms_sender.py:40-62).
Returns `(some (can_send, wait_time), state-after-eviction)`; the first
component is `none` when the refusal branch reads `self.sms_timestamps[0]`
of an empty deque and raises `IndexError` (possible only when
`rate_limit <= 0`, since otherwise refusal implies a non-empty deque). -/
def check_rate_limit (now : ℚ) (st : SenderState) : Option (Bool × ℚ) × SenderState :=
  let ts := evict_old (now - st.rate_window) st.sms_timestamps
  let st1 : SenderState := { st with sms_timestamps := ts }
  if (ts.length : ℤ) < st.rate_limit then
    (some (true, 0), st1)
  else
    match ts with
    | [] => (none, st1)
    | oldest :: _ => (some (false, max 0 (oldest + st.rate_window - now)), st1)

/-- `SMSSender._add_timestamp` (src/sms_sender.py:64-67): append `time.time()`. -/
def add_timestamp (now : ℚ) (st : SenderState) : SenderState :=
  { st with sms_timestamps := st.sms_timestamps ++ [now] }

/-- Python dict assignment `self.sms_status[sms_id] = r` (no-op when the
call got no `sms_id`). -/
def put_status (sms_id : Option String) (r : SmsResult)
    (m : List (String × SmsResult)) : List (String × SmsResult) :=
  match sms_id with
  | none => m
  | some i => (i, r) :: m.filter (fun e => decide (e.1 ≠ i))

/-- Python truthiness of an optional string (`None` and `""` are falsy). -/
def truthy_str : Option String → Bool
  | none => false
  | some s => !s.isEmpty

/-- Python truthiness of an optional float (`None` and `0` are falsy),
used by `if max_wait_time and ...`. -/
def truthy_rat : Option ℚ → Bool
  | none => false
  | some q => decide (q ≠ 0)

/-- Result of the `wait_for_rate_limit` polling loop: admitted (with the
post-eviction sender state and the unconsumed clock stream), timed out,
escaped `IndexError`, or model fuel exhausted (the loop still running). -/
inductive WaitOutcome
  | canSend (st : SenderState) (times : List ℚ)
  | timedOut (st : SenderState) (times : List ℚ)
  | exn (st : SenderState)
  | fuel
deriving DecidableEq

/-- The `while True` body of `SMSSender.wait_for_rate_limit`
(src/sms_sender.py:81-95): poll `_check_rate_limit`; return admitted;
otherwise, if `max_wait_time` is truthy and the elapsed wall time reached
it, give up; else sleep and poll again.  The second `time.time()` of an
iteration is only consumed when `max_wait_time` is truthy (short-circuit
`and`). -/
def wait_loop (max_wait : Option ℚ) (start_wait : ℚ) :
    List ℚ → SenderState → WaitOutcome
  | [], _ => .fuel
  | now :: rest, st =>
    match check_rate_limit now st with
    | (none, st1) => .exn st1
    | (some (true, _), st1) => .canSend st1 rest
    | (some (false, _), st1) =>
      if truthy_rat max_wait then
        match rest with
        | [] => .fuel
        | t2 :: rest2 =>
          if max_wait.getD 0 ≤ t2 - start_wait then .timedOut st1 rest2
          else wait_loop max_wait start_wait rest2 st1
      else
        wait_loop max_wait start_wait rest st1

/-- Result of one `send_single_sms` call: a returned result dict plus the
new sender state, an escaped exception, or model fuel exhausted. -/
inductive SendOutcome
  | ok (r : SmsResult) (st : SenderState)
  | exn (st : SenderState)
  | diverge
deriving DecidableEq

/-- The `try` block of `send_single_sms` (src/sms_sender.py:154-226):
read `start_time`, invoke the transport, read `end_time`; on success append
a fresh `time.time()` to the window iff `respect_rate_limit`, bump
`total_sent`, and build the `sent` dict whose `current_count` is read after
the append; on `TimeoutExpired`/other exceptions bump `total_errors` and
build the corresponding `error` dict.  Every branch stores the dict under
`sms_id` when one was given. -/
def do_send (number message : String) (sms_id : Option String)
    (respect_rate : Bool) (transport : TransportOutcome)
    (times : List ℚ) (st : SenderState) : SendOutcome :=
  match times with
  | [] => .diverge
  | start_t :: times1 =>
    match transport with
    | .success =>
      match times1 with
      | [] => .diverge
      | end_t :: times2 =>
        if respect_rate then
          match times2 with
          | [] => .diverge
          | add_t :: _ =>
            let st1 := add_timestamp add_t st
            let st2 : SenderState := { st1 with total_sent := st1.total_sent + 1 }
            let r : SmsResult :=
              { status := .sent
                to_number := number
                message := some message
                detail := none
                wait_time := none
                duration := some (end_t - start_t)
                rate_count := some st2.sms_timestamps.length }
            .ok r { st2 with sms_status := put_status sms_id r st2.sms_status }
        else
          let st2 : SenderState := { st with total_sent := st.total_sent + 1 }
          let r : SmsResult :=
            { status := .sent
              to_number := number
              message := some message
              detail := none
              wait_time := none
              duration := some (end_t - start_t)
              rate_count := some st2.sms_timestamps.length }
          .ok r { st2 with sms_status := put_status sms_id r st2.sms_status }
    | .timeoutExpired =>
      let st2 : SenderState := { st with total_errors := st.total_errors + 1 }
      let r : SmsResult :=
        { status := .error
          to_number := number
          message := none
          detail := some "Timeout ao enviar SMS"
          wait_time := none
          duration := none
          rate_count := none }
      .ok r { st2 with sms_status := put_status sms_id r st2.sms_status }
    | .failure msg =>
      let st2 : SenderState := { st with total_errors := st.total_errors + 1 }
      let r : SmsResult :=
        { status := .error
          to_number := number
          message := none
          detail := some msg
          wait_time := none
          duration := none
          rate_count := none }
      .ok r { st2 with sms_status := put_status sms_id r st2.sms_status }

/-- `SMSSender.send_single_sms` (src/sms_sender.py:97-226).
When `respect_rate` holds: check admission; on refusal either return the
immediate `rate_limited` dict (`max_wait_time == 0`), or run
`wait_for_rate_limit(max_wait_time)` (whose `start_wait = time.time()` is
the next clock value) and on give-up return the max-wait `rate_limited`
dict; on admission fall through to the transport.  When `respect_rate` is
false the rate limiter is neither consulted nor updated. -/
def send_single_sms (number message : String) (sms_id : Option String)
    (respect_rate : Bool) (max_wait : Option ℚ) (transport : TransportOutcome)
    (times : List ℚ) (st : SenderState) : SendOutcome :=
  if respect_rate then
    match times with
    | [] => .diverge
    | now :: rest =>
      match check_rate_limit now st with
      | (none, st1) => .exn st1
      | (some (true, _), st1) =>
        do_send number message sms_id respect_rate transport rest st1
      | (some (false, w), st1) =>
        if max_wait = some 0 then
          let st2 : SenderState := { st1 with rate_limited := st1.rate_limited + 1 }
          let r : SmsResult :=
            { status := .rateLimited
              to_number := number
              message := none
              detail := some "Rate limit atingido. Aguarde"
              wait_time := some w
              duration := none
              rate_count := none }
          .ok r { st2 with sms_status := put_status sms_id r st2.sms_status }
        else
          match rest with
          | [] => .diverge
          | t0 :: rest1 =>
            match wait_loop max_wait t0 rest1 st1 with
            | .fuel => .diverge
            | .exn st2 => .exn st2
            | .timedOut st2 _ =>
              let st3 : SenderState := { st2 with rate_limited := st2.rate_limited + 1 }
              let r : SmsResult :=
                { status := .rateLimited
                  to_number := number
                  message := none
                  detail := some "Tempo máximo de espera pelo rate limit atingido"
                  wait_time := none
                  duration := none
                  rate_count := none }
              .ok r { st3 with sms_status := put_status sms_id r st3.sms_status }
            | .canSend st2 rest2 =>
              do_send number message sms_id respect_rate transport rest2 st2
  else
    do_send number message sms_id respect_rate transport times st

/-- One observable interaction with the rate window: an admission check
(`_check_rate_limit`, whose eviction mutates the deque) at a given clock
value, or a recorded send (`_add_timestamp`). -/
inductive RateEvent
  | check (now : ℚ)
  | record (now : ℚ)
deriving DecidableEq

/-- Effect of one `RateEvent` on the sender state. -/
def apply_event (st : SenderState) : RateEvent → SenderState
  | .check t => (check_rate_limit t st).2
  | .record t => add_timestamp t st

/-- Replay a sequence of rate-window interactions. -/
def run_events (st : SenderState) (es : List RateEvent) : SenderState :=
  es.foldl apply_event st

/-- Number of recorded timestamps lying within the trailing `window`
seconds of `now` (i.e. not older than `now - window`). -/
def count_window (now window : ℚ) (s : List ℚ) : ℕ :=
  (s.filter (fun x => decide (now - window ≤ x))).length

/-- `SMSSender.clear_old_status` (src/sms_sender.py:295-319) on the status
dict, with each stored entry abstracted to the parse result of its
`"timestamp"` field (`none` = `datetime.fromisoformat` raises).  An entry
is deleted when its timestamp parses below `now - max_age_hours * 3600`
(`datetime.now() - timedelta(hours=max_age_hours)`) or fails to parse. -/
def clear_old_status (now max_age_hours : ℚ)
    (m : List (String × Option ℚ)) : List (String × Option ℚ) :=
  let cutoff := now - max_age_hours * 3600
  m.filter (fun e =>
    match e.2 with
    | some t => !decide (t < cutoff)
    | none => false)

/-- Python `round(q, 2)` idealized over `ℚ`: round to the nearest multiple
of `1/100`, ties to the even multiple. -/
def round_half_even (q : ℚ) : ℤ :=
  if q - ⌊q⌋ < 1/2 then ⌊q⌋
  else if 1/2 < q - ⌊q⌋ then ⌊q⌋ + 1
  else if ⌊q⌋ % 2 = 0 then ⌊q⌋ else ⌊q⌋ + 1

/-- `round(x, 2)` as used throughout `get_stats`. -/
def py_round_2 (q : ℚ) : ℚ :=
  (round_half_even (q * 100) : ℚ) / 100

/-- The dict returned by `SMSSender.get_stats` (src/sms_sender.py:265-293),
restricted to the numeric fields (the nested `current_rate_status` call is
covered by `check_rate_limit`). -/
structure StatsView where
  total_sent : ℕ
  total_errors : ℕ
  rate_limited : ℕ
  total_requests : ℕ
  success_rate : ℚ
  uptime_seconds : ℚ
  avg_sms_per_minute : ℚ
deriving DecidableEq

/-- `SMSSender.get_stats`: `uptime = now - start_time`;
`total_requests = total_sent + total_errors + rate_limited`;
`success_rate = round(sent/total*100, 2)` guarded by `total_requests > 0`;
`avg_sms_per_minute = round(sent/(uptime/60), 2)` guarded by `uptime > 0`. -/
def get_stats (now : ℚ) (st : SenderState) : StatsView :=
  let uptime := now - st.start_time
  let total_requests := st.total_sent + st.total_errors + st.rate_limited
  { total_sent := st.total_sent
    total_errors := st.total_errors
    rate_limited := st.rate_limited
    total_requests := total_requests
    success_rate :=
      py_round_2 (if 0 < total_requests then (st.total_sent : ℚ) / (total_requests : ℚ) * 100 else 0)
    uptime_seconds := py_round_2 uptime
    avg_sms_per_minute :=
      py_round_2 (if 0 < uptime then (st.total_sent : ℚ) / (uptime / 60) else 0) }

/-- One raw entry of the bulk `recipients` array (src/smsApi.py:136-172):
a bare string, a dict (whose `"to"`/`"message"` keys may be absent —
`dict.get` returns `None`), or a JSON value of any other type. -/
inductive Recipient
  | str (s : String)
  | obj (to_number : Option String) (message : Option String)
  | other
deriving DecidableEq

/-- The `recipients` field of the bulk request body: absent
(`data.get("recipients", [])` yields `[]`), present but not a list (with
its Python truthiness), or an actual list. -/
inductive RecipientsField
  | missing
  | notAList (truthy : Bool)
  | aList (rs : List Recipient)
deriving DecidableEq

/-- Python truthiness of the `recipients` value as tested by
`if not recipients` (missing defaults to `[]`, which is falsy). -/
def truthy_recipients : RecipientsField → Bool
  | .missing => false
  | .notAList b => b
  | .aList rs => !rs.isEmpty

/-- The normalization loop of `send_bulk_sms` (src/smsApi.py:134-172),
starting at index `i`: resolve every entry to a `(to, message)` pair or
fail the whole batch with the first entry's error message. -/
def normalize_from (message : Option String) :
    ℕ → List Recipient → Except String (List (String × String))
  | _, [] => .ok []
  | i, .str s :: rest =>
    if truthy_str message then
      match normalize_from message (i + 1) rest with
      | .ok tail => .ok ((s, message.getD "") :: tail)
      | .error e => .error e
    else
      .error ("Mensagem é obrigatória quando recipients[" ++ toString i ++ "] é uma string")
  | i, .obj to_number msg :: rest =>
    if truthy_str to_number then
      if truthy_str msg then
        match normalize_from message (i + 1) rest with
        | .ok tail => .ok ((to_number.getD "", msg.getD "") :: tail)
        | .error e => .error e
      else if truthy_str message then
        match normalize_from message (i + 1) rest with
        | .ok tail => .ok ((to_number.getD "", message.getD "") :: tail)
        | .error e => .error e
      else
        .error ("Mensagem é obrigatória em recipients[" ++ toString i ++ "] ou como mensagem padrão")
    else
      .error ("Campo \x27to\x27 é obrigatório em recipients[" ++ toString i ++ "]")
  | i, .other :: _ =>
    .error ("recipients[" ++ toString i ++ "] deve ser uma string ou objeto com \x27to\x27 e \x27message\x27")

/-- Does the normalization loop reject this entry?  (Mirrors the three
error branches of the loop body given the default `message`.) -/
def entry_invalid (message : Option String) : Recipient → Bool
  | .str _ => !truthy_str message
  | .obj to_number msg => !truthy_str to_number || (!truthy_str msg && !truthy_str message)
  | .other => true

/-- The indexed error message the normalization loop produces when it rejects
the entry at index `i` (the exact strings of src/smsApi.py:139-172, which name
the offending `recipients[i]`). -/
def entry_error (i : ℕ) : Recipient → String
  | .str _ => "Mensagem é obrigatória quando recipients[" ++ toString i ++ "] é uma string"
  | .obj to_number _ =>
    if truthy_str to_number then
      "Mensagem é obrigatória em recipients[" ++ toString i ++ "] ou como mensagem padrão"
    else
      "Campo \x27to\x27 é obrigatório em recipients[" ++ toString i ++ "]"
  | .other => "recipients[" ++ toString i ++ "] deve ser uma string ou objeto com \x27to\x27 e \x27message\x27"

/-- One result dict of the plain (non-rate-limited) `SMSSender.send_single_sms`
in `src/smsApi.py:30-84`, as collected by the bulk endpoint. -/
structure ApiResult where
  status : SmsStatus
  to_number : String
  message : Option String
  detail : Option String
  duration : Option ℚ
deriving DecidableEq

/-- `smsApi.SMSSender.send_single_sms` (no rate limiting): success yields a
`sent` dict with the elapsed duration; `TimeoutExpired` and any other
exception yield `error` dicts. -/
def api_send_single_sms (number message : String) (t : TransportOutcome)
    (start_t end_t : ℚ) : ApiResult :=
  match t with
  | .success =>
    { status := .sent
      to_number := number
      message := some message
      detail := none
      duration := some (end_t - start_t) }
  | .timeoutExpired =>
    { status := .error
      to_number := number
      message := none
      detail := some "Timeout ao enviar SMS"
      duration := none }
  | .failure m =>
    { status := .error
      to_number := number
      message := none
      detail := some m
      duration := none }

/-- How the future of one bulk entry resolves (src/smsApi.py:192-204):
either `future.result()` returns the job's own outcome (the job ran with
the given transport outcome and clock readings), or `future.result()`
itself raises and the except-branch fabricates an `error` dict from the
recipient. -/
inductive EntryBehavior
  | runs (t : TransportOutcome) (start_t end_t : ℚ)
  | futureFault (msg : String)
deriving DecidableEq

/-- The per-item result appended to `results` for one normalized entry. -/
def bulk_item_result (to_number msg : String) (b : EntryBehavior) : ApiResult :=
  match b with
  | .runs t s e => api_send_single_sms to_number msg t s e
  | .futureFault m =>
    { status := .error
      to_number := to_number
      message := some msg
      detail := some m
      duration := none }

/-- Collect one result per normalized entry, entry `i` resolving as
`behave i`.  (`as_completed` makes the real collection order a permutation
of this one; the aggregate counters are order-independent.) -/
def dispatch_from (behave : ℕ → EntryBehavior) :
    ℕ → List (String × String) → List ApiResult
  | _, [] => []
  | i, p :: rest => bulk_item_result p.1 p.2 (behave i) :: dispatch_from behave (i + 1) rest

/-- The JSON object returned by a successful bulk call
(src/smsApi.py:210-216). -/
structure BulkResponse where
  total : ℕ
  sent : ℕ
  errors : ℕ
  results : List ApiResult
deriving DecidableEq

/-- `send_bulk_sms` (src/smsApi.py:119-216): reject a falsy or non-list
`recipients`, normalize all entries (failing the whole batch on the first
invalid one), reject an empty normalized list, then dispatch every entry
and aggregate `sent = #sent`, `errors = len(results) - sent`,
`total = len(processed_recipients)`. -/
def send_bulk_sms (recipients : RecipientsField) (message : Option String)
    (behave : ℕ → EntryBehavior) : Except String BulkResponse :=
  if truthy_recipients recipients then
    match recipients with
    | .aList rs =>
      match normalize_from message 0 rs with
      | .error e => .error e
      | .ok processed =>
        if processed.isEmpty then
          .error "Nenhum destinatário válido encontrado"
        else
          let results := dispatch_from behave 0 processed
          let sent_count := (results.filter (fun r => decide (r.status = SmsStatus.sent))).length
          let error_count := results.length - sent_count
          .ok { total := processed.length
                sent := sent_count
                errors := error_count
                results := results }
    | _ => .error "Campo \x27recipients\x27 deve ser uma lista"
  else
    .error "Campo \x27recipients\x27 é obrigatório"

/-- Projection used by the wait-loop lemmas: the sender state carried by a
finished wait outcome, if any. -/
def wait_state : WaitOutcome → Option SenderState
  | .canSend st _ => some st
  | .timedOut st _ => some st
  | .exn st => some st
  | .fuel => none

/-- A sorted two-element window over a limit of 1, for concrete checks. -/
def demo_sorted_state : SenderState :=
  { init_sms_sender 1 10 0 with sms_timestamps := [1, 2] }

/-- The result dict of one concrete admitted, successful send. -/
def demo_sent_result : SmsResult :=
  { status := .sent, to_number := "n", message := some "m", detail := none,
    wait_time := none, duration := some ((3 : ℚ) - 2), rate_count := some 1 }

/-- The sender state after that send. -/
def demo_sent_state : SenderState :=
  { init_sms_sender 5 60 0 with sms_timestamps := [4], total_sent := 1 }

/-- The result dict of one concrete send with rate limiting disabled. -/
def demo_norate_result : SmsResult :=
  { status := .sent, to_number := "n", message := some "m", detail := none,
    wait_time := none, duration := some ((2 : ℚ) - 1), rate_count := some 0 }

/-- The sender state after that send. -/
def demo_norate_state : SenderState :=
  { init_sms_sender 5 60 0 with total_sent := 1 }

/-- The aggregate response of one concrete single-entry bulk call. -/
def demo_bulk_response : BulkResponse :=
  { total := 1
    sent := 1
    errors := 0
    results := [{ status := .sent, to_number := "A", message := some "hello",
                  detail := none, duration := some ((0 : ℚ) - 0) }] }

/-- Eviction only drops entries from the front of the deque: the surviving
window is a suffix of the previous one. -/
theorem evict_old_suffix (c : ℚ) (s : List ℚ) : evict_old c s <:+ s :=
  List.dropWhile_suffix _

/-- On a time-ordered deque (the `RateWindow` invariant), the front-eviction
loop removes exactly the timestamps strictly older than the cutoff. -/
theorem evict_old_sorted (c : ℚ) (s : List ℚ) (hs : List.Pairwise (· ≤ ·) s) :
    evict_old c s = s.filter (fun x => decide (c ≤ x)) := by
  induction s with
  | nil => rfl
  | cons a t ih =>
    rw [List.pairwise_cons] at hs
    by_cases h : a < c
    · simp only [evict_old, List.dropWhile_cons, List.filter_cons]
      rw [if_pos (by simpa using h), if_neg (by simpa using not_le.mpr h)]
      exact ih hs.2
    · simp only [evict_old, List.dropWhile_cons, List.filter_cons]
      rw [if_neg (by simpa using h), if_pos (by simpa using not_lt.mp h)]
      rw [List.filter_eq_self.mpr (fun b hb => by
        simpa using le_trans (not_lt.mp h) (hs.1 b hb))]

/-- The state after `_check_rate_limit` differs from the state before only in
the evicted deque. -/
theorem check_rate_limit_snd (now : ℚ) (st : SenderState) :
    (check_rate_limit now st).2
      = { st with sms_timestamps := evict_old (now - st.rate_window) st.sms_timestamps } := by
  simp only [check_rate_limit]
  split
  · rfl
  · split <;> rfl

/-- An admitted check returns wait time 0 and means the post-eviction count is
strictly below `rate_limit`. -/
theorem check_fst_true (now : ℚ) (st : SenderState) (w : ℚ)
    (h : (check_rate_limit now st).1 = some (true, w)) :
    w = 0 ∧ ((evict_old (now - st.rate_window) st.sms_timestamps).length : ℤ) < st.rate_limit := by
  simp only [check_rate_limit] at h
  split at h
  · exact ⟨by injection h with h1; injection h1 with h2 h3; exact h3.symm, by assumption⟩
  · split at h <;> simp at h

/-- When the post-eviction count is below `rate_limit`, the check admits. -/
theorem check_fst_of_lt (now : ℚ) (st : SenderState)
    (h : ((evict_old (now - st.rate_window) st.sms_timestamps).length : ℤ) < st.rate_limit) :
    (check_rate_limit now st).1 = some (true, 0) := by
  simp only [check_rate_limit]
  rw [if_pos h]

/-- A refusing check means the count bound failed, and the returned wait time
is `max 0 (oldest + rate_window - now)` for the oldest surviving timestamp. -/
theorem check_fst_false (now : ℚ) (st : SenderState) (w : ℚ)
    (h : (check_rate_limit now st).1 = some (false, w)) :
    ¬ ((evict_old (now - st.rate_window) st.sms_timestamps).length : ℤ) < st.rate_limit
    ∧ ∃ oldest rest, evict_old (now - st.rate_window) st.sms_timestamps = oldest :: rest
        ∧ w = max 0 (oldest + st.rate_window - now) := by
  simp only [check_rate_limit] at h
  split at h
  · simp at h
  · constructor
    · assumption
    · split at h
      · simp at h
      · rename_i oldest rest heq
        injection h with h1
        injection h1 with h2 h3
        exact ⟨oldest, rest, heq, h3.symm⟩

/-- The `IndexError` outcome happens exactly when the count bound failed on an
empty post-eviction deque. -/
theorem check_fst_none (now : ℚ) (st : SenderState)
    (h : (check_rate_limit now st).1 = none) :
    ¬ ((evict_old (now - st.rate_window) st.sms_timestamps).length : ℤ) < st.rate_limit
    ∧ evict_old (now - st.rate_window) st.sms_timestamps = [] := by
  simp only [check_rate_limit] at h
  split at h
  · simp at h
  · refine ⟨by assumption, ?_⟩
    split at h
    · assumption
    · simp at h


/-- Composing two state transitions that each only touch `sms_timestamps`
yields one that only touches `sms_timestamps`. -/
theorem frame_trans {a b c : SenderState}
    (h1 : b = { a with sms_timestamps := b.sms_timestamps })
    (h2 : c = { b with sms_timestamps := c.sms_timestamps }) :
    c = { a with sms_timestamps := c.sms_timestamps } := by
  obtain ⟨a1, a2, a3, a4, a5, a6, a7, a8⟩ := a
  obtain ⟨b1, b2, b3, b4, b5, b6, b7, b8⟩ := b
  obtain ⟨c1, c2, c3, c4, c5, c6, c7, c8⟩ := c
  simp only [SenderState.mk.injEq] at h1 h2 ⊢
  simp_all

/-- `_check_rate_limit` only shrinks the timestamp deque (to a suffix) and
leaves every other field unchanged. -/
theorem check_rate_limit_frame (now : ℚ) (st : SenderState) :
    (check_rate_limit now st).2
        = { st with sms_timestamps := (check_rate_limit now st).2.sms_timestamps }
    ∧ (check_rate_limit now st).2.sms_timestamps <:+ st.sms_timestamps := by
  rw [check_rate_limit_snd]
  exact ⟨rfl, evict_old_suffix _ _⟩

/-- However `wait_for_rate_limit` exits (admitted, timed out, or by the
escaped `IndexError`), it has only evicted timestamps: the resulting deque is
a suffix of the original and all other fields are unchanged. -/
theorem wait_loop_frame : ∀ (n : ℕ) (times : List ℚ) (mw : Option ℚ) (sw : ℚ)
    (st st2 : SenderState), times.length ≤ n →
    wait_state (wait_loop mw sw times st) = some st2 →
    st2 = { st with sms_timestamps := st2.sms_timestamps }
      ∧ st2.sms_timestamps <:+ st.sms_timestamps := by
  intro n
  induction n with
  | zero =>
    intro times mw sw st st2 hlen h
    have : times = [] := List.length_eq_zero.mp (Nat.le_zero.mp hlen)
    subst this
    simp [wait_loop, wait_state] at h
  | succ m ih =>
    intro times mw sw st st2 hlen h
    cases times with
    | nil => simp [wait_loop, wait_state] at h
    | cons now rest =>
      have hcf := check_rate_limit_frame now st
      rcases hc : check_rate_limit now st with ⟨res, st1⟩
      rw [hc] at hcf
      simp only [wait_loop] at h
      rw [hc] at h
      rcases res with _ | ⟨b, w⟩
      · -- IndexError branch
        simp only [wait_state] at h
        injection h with h1
        subst h1
        exact ⟨hcf.1, hcf.2⟩
      · cases b with
        | true =>
          simp only [wait_state] at h
          injection h with h1
          subst h1
          exact ⟨hcf.1, hcf.2⟩
        | false =>
          simp only at h
          by_cases htr : truthy_rat mw = true
          · rw [if_pos htr] at h
            cases rest with
            | nil => simp [wait_state] at h
            | cons t2 rest2 =>
              replace h : wait_state (if mw.getD 0 ≤ t2 - sw
                  then WaitOutcome.timedOut st1 rest2
                  else wait_loop mw sw rest2 st1) = some st2 := h
              by_cases hto : mw.getD 0 ≤ t2 - sw
              · rw [if_pos hto] at h
                simp only [wait_state] at h
                injection h with h1
                subst h1
                exact ⟨hcf.1, hcf.2⟩
              · rw [if_neg hto] at h
                have hrec := ih rest2 mw sw st1 st2 (by simp at hlen; omega) h
                exact ⟨frame_trans hcf.1 hrec.1, hrec.2.trans hcf.2⟩
          · rw [if_neg htr] at h
            have hrec := ih rest mw sw st1 st2 (by simp at hlen; omega) h
            exact ⟨frame_trans hcf.1 hrec.1, hrec.2.trans hcf.2⟩

/-- With `rate_limit <= 0` no admission check ever returns admitted. -/
theorem check_never_admits {st : SenderState} (hlim : st.rate_limit ≤ 0) (now w : ℚ) :
    (check_rate_limit now st).1 ≠ some (true, w) := by
  intro hc
  have := (check_fst_true now st w hc).2
  omega

/-- With `rate_limit <= 0` the polling loop never reports admitted. -/
theorem wait_loop_never_admits : ∀ (n : ℕ) (times : List ℚ) (mw : Option ℚ) (sw : ℚ)
    (st : SenderState), times.length ≤ n → st.rate_limit ≤ 0 →
    ∀ st2 r2, wait_loop mw sw times st ≠ .canSend st2 r2 := by
  intro n
  induction n with
  | zero =>
    intro times mw sw st hlen hlim st2 r2 h
    have : times = [] := List.length_eq_zero.mp (Nat.le_zero.mp hlen)
    subst this
    simp [wait_loop] at h
  | succ m ih =>
    intro times mw sw st hlen hlim st2 r2 h
    cases times with
    | nil => simp [wait_loop] at h
    | cons now rest =>
      have hsnd := check_rate_limit_snd now st
      rcases hc : check_rate_limit now st with ⟨res, st1⟩
      rw [hc] at hsnd
      have hlim1 : st1.rate_limit ≤ 0 := by
        have : st1 = { st with sms_timestamps := evict_old (now - st.rate_window) st.sms_timestamps } := hsnd
        rw [this]
        exact hlim
      simp only [wait_loop] at h
      rw [hc] at h
      rcases res with _ | ⟨b, w⟩
      · simp at h
      · cases b with
        | true =>
          have : (check_rate_limit now st).1 = some (true, w) := by rw [hc]
          exact check_never_admits hlim now w this
        | false =>
          simp only at h
          by_cases htr : truthy_rat mw = true
          · rw [if_pos htr] at h
            cases rest with
            | nil => simp at h
            | cons t2 rest2 =>
              replace h : (if mw.getD 0 ≤ t2 - sw
                  then WaitOutcome.timedOut st1 rest2
                  else wait_loop mw sw rest2 st1) = WaitOutcome.canSend st2 r2 := h
              by_cases hto : mw.getD 0 ≤ t2 - sw
              · rw [if_pos hto] at h
                simp at h
              · rw [if_neg hto] at h
                exact ih rest2 mw sw st1 (by simp at hlen; omega) hlim1 st2 r2 h
          · rw [if_neg htr] at h
            exact ih rest mw sw st1 (by simp at hlen; omega) hlim1 st2 r2 h

/-- Dispatch-phase facts: a returned dict is `sent` or `error`; `sent` implies
the transport succeeded; with rate limiting on, `sent` means exactly one
timestamp was appended and the reported `current_count` was read after the
append; otherwise the deque is untouched. -/
theorem do_send_ok (number message : String) (sms_id : Option String) (respect : Bool)
    (transport : TransportOutcome) (times : List ℚ) (st : SenderState)
    (r : SmsResult) (st2 : SenderState)
    (h : do_send number message sms_id respect transport times st = .ok r st2) :
    (r.status = SmsStatus.sent ∨ r.status = SmsStatus.error)
    ∧ (r.status = SmsStatus.sent → transport = TransportOutcome.success)
    ∧ (r.status = SmsStatus.sent → respect = true →
        ∃ t, st2.sms_timestamps = st.sms_timestamps ++ [t]
          ∧ r.rate_count = some st2.sms_timestamps.length)
    ∧ (respect = false → st2.sms_timestamps = st.sms_timestamps)
    ∧ (r.status = SmsStatus.error → st2.sms_timestamps = st.sms_timestamps) := by
  cases times with
  | nil => simp [do_send] at h
  | cons start_t times1 =>
    cases transport with
    | success =>
      cases times1 with
      | nil => simp [do_send] at h
      | cons end_t times2 =>
        cases respect with
        | true =>
          cases times2 with
          | nil => simp [do_send] at h
          | cons add_t times3 =>
            simp only [do_send, if_pos] at h
            injection h with h1 h2
            subst h1; subst h2
            refine ⟨Or.inl rfl, fun _ => rfl, fun _ _ => ⟨add_t, rfl, rfl⟩, ?_, ?_⟩
            · intro hco; cases hco
            · intro hco; cases hco
        | false =>
          simp only [do_send, if_neg] at h
          injection h with h1 h2
          subst h1; subst h2
          refine ⟨Or.inl rfl, fun _ => rfl, ?_, fun _ => rfl, ?_⟩
          · intro _ hco; cases hco
          · intro hco; cases hco
    | timeoutExpired =>
      simp only [do_send] at h
      injection h with h1 h2
      subst h1; subst h2
      refine ⟨Or.inr rfl, ?_, ?_, fun _ => rfl, fun _ => rfl⟩
      · intro hco; cases hco
      · intro hco; cases hco
    | failure msg =>
      simp only [do_send] at h
      injection h with h1 h2
      subst h1; subst h2
      refine ⟨Or.inr rfl, ?_, ?_, fun _ => rfl, fun _ => rfl⟩
      · intro hco; cases hco
      · intro hco; cases hco

/-- The `try` block catches every transport failure: no exception escapes the
dispatch phase. -/
theorem do_send_no_exn (number message : String) (sms_id : Option String) (respect : Bool)
    (transport : TransportOutcome) (times : List ℚ) (st : SenderState) :
    ∀ st2, do_send number message sms_id respect transport times st ≠ .exn st2 := by
  intro st2 h
  cases times with
  | nil => simp [do_send] at h
  | cons start_t times1 =>
    cases transport with
    | success =>
      cases times1 with
      | nil => simp [do_send] at h
      | cons end_t times2 =>
        cases respect with
        | true =>
          cases times2 with
          | nil => simp [do_send] at h
          | cons add_t times3 => simp only [do_send, if_pos] at h; cases h
        | false => simp only [do_send, if_neg] at h; cases h
    | timeoutExpired => simp only [do_send] at h; cases h
    | failure msg => simp only [do_send] at h; cases h

/-- C3: for every `send_single_sms` call with rate limiting in effect that
returns a result, a timestamp is appended to the rate window iff the transport
invocation completed with a success outcome: a `sent` result implies transport
success and a window equal to a suffix of the old window (eviction) plus one
new timestamp, with `current_count` read after the append (so the append
happens before the outcome is returned); a rate-limited or error result
leaves the window a suffix of the old one, consuming no quota. -/
theorem send_quota_iff_success (number message : String) (sms_id : Option String)
    (max_wait : Option ℚ) (transport : TransportOutcome) (times : List ℚ)
    (st : SenderState) (r : SmsResult) (st' : SenderState)
    (h : send_single_sms number message sms_id true max_wait transport times st = .ok r st') :
    (r.status = SmsStatus.sent →
      transport = TransportOutcome.success ∧
      ∃ E t, E <:+ st.sms_timestamps ∧ st'.sms_timestamps = E ++ [t]
        ∧ r.rate_count = some st'.sms_timestamps.length)
    ∧ (r.status ≠ SmsStatus.sent → st'.sms_timestamps <:+ st.sms_timestamps) := by
  cases times with
  | nil => simp [send_single_sms] at h
  | cons now rest =>
    simp only [send_single_sms, if_pos] at h
    rcases hc : check_rate_limit now st with ⟨res, st1⟩
    rw [hc] at h
    have hcf := check_rate_limit_frame now st
    rw [hc] at hcf
    rcases res with _ | ⟨b, w⟩
    · simp at h
    · cases b with
      | true =>
        have hd := do_send_ok number message sms_id true transport rest st1 r st' h
        constructor
        · intro hsent
          refine ⟨hd.2.1 hsent, ?_⟩
          obtain ⟨t, hts, hrc⟩ := hd.2.2.1 hsent rfl
          exact ⟨st1.sms_timestamps, t, hcf.2, hts, hrc⟩
        · intro hns
          have herr : r.status = SmsStatus.error := by
            rcases hd.1 with h1 | h1
            · exact absurd h1 hns
            · exact h1
          rw [hd.2.2.2.2 herr]
          exact hcf.2
      | false =>
        simp only at h
        by_cases hmw : max_wait = some 0
        · rw [if_pos hmw] at h
          injection h with h1 h2
          subst h1; subst h2
          constructor
          · intro hsent; cases hsent
          · intro _; exact hcf.2
        · rw [if_neg hmw] at h
          cases rest with
          | nil => simp at h
          | cons t0 rest1 =>
            simp only at h
            cases hw : wait_loop max_wait t0 rest1 st1 with
            | fuel => rw [hw] at h; simp at h
            | exn st2w => rw [hw] at h; simp at h
            | canSend st2w rest2 =>
              rw [hw] at h
              have hfr := wait_loop_frame rest1.length rest1 max_wait t0 st1 st2w
                (le_refl _) (by rw [hw]; rfl)
              have hd := do_send_ok number message sms_id true transport rest2 st2w r st' h
              constructor
              · intro hsent
                refine ⟨hd.2.1 hsent, ?_⟩
                obtain ⟨t, hts, hrc⟩ := hd.2.2.1 hsent rfl
                exact ⟨st2w.sms_timestamps, t, hfr.2.trans hcf.2, hts, hrc⟩
              · intro hns
                have herr : r.status = SmsStatus.error := by
                  rcases hd.1 with h1 | h1
                  · exact absurd h1 hns
                  · exact h1
                rw [hd.2.2.2.2 herr]
                exact hfr.2.trans hcf.2
            | timedOut st2w rest2 =>
              rw [hw] at h
              have hfr := wait_loop_frame rest1.length rest1 max_wait t0 st1 st2w
                (le_refl _) (by rw [hw]; rfl)
              simp only at h
              injection h with h1 h2
              subst h1; subst h2
              constructor
              · intro hsent; cases hsent
              · intro _; exact hfr.2.trans hcf.2

/-- C4 (amended): with `rate_limit <= 0` no admission check ever returns an
admitted result, and every `send_single_sms` call under rate limiting that
returns a result returns a rate-limited one.  (A check on an empty
post-eviction window raises `IndexError` rather than returning a not-admitted
result — see the counterexample.) -/
theorem nonpos_limit_never_sends (number message : String) (sms_id : Option String)
    (max_wait : Option ℚ) (transport : TransportOutcome) (times : List ℚ)
    (st : SenderState) (hlim : st.rate_limit ≤ 0) :
    (∀ now w, (check_rate_limit now st).1 ≠ some (true, w))
    ∧ (∀ r st', send_single_sms number message sms_id true max_wait transport times st = .ok r st'
        → r.status = SmsStatus.rateLimited) := by
  refine ⟨fun now w => check_never_admits hlim now w, ?_⟩
  intro r st' h
  cases times with
  | nil => simp [send_single_sms] at h
  | cons now rest =>
    simp only [send_single_sms, if_pos] at h
    rcases hc : check_rate_limit now st with ⟨res, st1⟩
    rw [hc] at h
    have hsnd := check_rate_limit_snd now st
    rw [hc] at hsnd
    have hlim1 : st1.rate_limit ≤ 0 := by
      have h1 : st1 = { st with
          sms_timestamps := evict_old (now - st.rate_window) st.sms_timestamps } := hsnd
      rw [h1]
      exact hlim
    rcases res with _ | ⟨b, w⟩
    · simp at h
    · cases b with
      | true =>
        exact absurd (by rw [hc] : (check_rate_limit now st).1 = some (true, w))
          (check_never_admits hlim now w)
      | false =>
        simp only at h
        by_cases hmw : max_wait = some 0
        · rw [if_pos hmw] at h
          injection h with h1 h2
          subst h1
          rfl
        · rw [if_neg hmw] at h
          cases rest with
          | nil => simp at h
          | cons t0 rest1 =>
            simp only at h
            cases hw : wait_loop max_wait t0 rest1 st1 with
            | fuel => rw [hw] at h; simp at h
            | exn st2w => rw [hw] at h; simp at h
            | canSend st2w rest2 =>
              exact absurd hw (wait_loop_never_admits rest1.length rest1 max_wait t0 st1
                (le_refl _) hlim1 st2w rest2)
            | timedOut st2w rest2 =>
              rw [hw] at h
              injection h with h1 h2
              subst h1
              rfl

/-- C10: with `respect_rate_limit=False` the rate window is neither consulted
nor modified: a returned result is never rate-limited and the timestamp deque
is exactly the one the call started with (no eviction, no append), and the
call can never end in the limiter's `IndexError`. -/
theorem no_rate_interaction_when_disabled (number message : String) (sms_id : Option String)
    (max_wait : Option ℚ) (transport : TransportOutcome) (times : List ℚ)
    (st : SenderState) :
    (∀ r st', send_single_sms number message sms_id false max_wait transport times st = .ok r st' →
        r.status ≠ SmsStatus.rateLimited ∧ st'.sms_timestamps = st.sms_timestamps)
    ∧ (∀ st', send_single_sms number message sms_id false max_wait transport times st ≠ .exn st') := by
  constructor
  · intro r st' h
    replace h : do_send number message sms_id false transport times st = .ok r st' := h
    have hd := do_send_ok number message sms_id false transport times st r st' h
    constructor
    · intro hrl
      rcases hd.1 with h1 | h1 <;> rw [h1] at hrl <;> cases hrl
    · exact hd.2.2.2.1 rfl
  · intro st' h
    replace h : do_send number message sms_id false transport times st = .exn st' := h
    exact do_send_no_exn number message sms_id false transport times st st' h

/-- Replaying admission checks and recorded sends never changes the
configuration fields. -/
theorem run_events_preserves_config (es : List RateEvent) : ∀ st : SenderState,
    (run_events st es).rate_limit = st.rate_limit
    ∧ (run_events st es).rate_window = st.rate_window := by
  induction es with
  | nil => intro st; exact ⟨rfl, rfl⟩
  | cons e t ih =>
    intro st
    have h1 : run_events st (e :: t) = run_events (apply_event st e) t := rfl
    rw [h1]
    rcases ih (apply_event st e) with ⟨ha, hb⟩
    rw [ha, hb]
    cases e with
    | check tt =>
      simp [apply_event, check_rate_limit_snd]
    | record tt => exact ⟨rfl, rfl⟩

/-- Appending one timestamp grows the in-window count to at most the previous
length plus one. -/
theorem count_window_append_le (now window t : ℚ) (E : List ℚ) :
    count_window now window (E ++ [t]) ≤ E.length + 1 := by
  simp only [count_window, List.filter_append, List.length_append]
  have h1 := List.length_filter_le (fun x => decide (now - window ≤ x)) E
  have h2 := List.length_filter_le (fun x => decide (now - window ≤ x)) [t]
  simp only [List.length_singleton] at h2
  omega

/-- C1: for every sequence of admission checks and recorded sends, if a
timestamp is recorded immediately after a check that admitted, then the number
of recorded timestamps within the trailing `rate_window` seconds, measured
immediately after that admit-then-record step, never exceeds `rate_limit`. -/
theorem admit_then_record_bounded (st0 : SenderState) (pre : List RateEvent) (tc ta w : ℚ)
    (h : (check_rate_limit tc (run_events st0 pre)).1 = some (true, w)) :
    (count_window ta st0.rate_window
        (run_events st0 (pre ++ [RateEvent.check tc, RateEvent.record ta])).sms_timestamps : ℤ)
      ≤ st0.rate_limit := by
  have hM := check_fst_true tc (run_events st0 pre) w h
  have hconfig := run_events_preserves_config pre st0
  have hrun : run_events st0 (pre ++ [RateEvent.check tc, RateEvent.record ta])
      = add_timestamp ta (check_rate_limit tc (run_events st0 pre)).2 := by
    simp only [run_events, List.foldl_append]
    rfl
  rw [hrun, check_rate_limit_snd]
  simp only [add_timestamp]
  have hb := count_window_append_le ta st0.rate_window ta
    (evict_old (tc - (run_events st0 pre).rate_window) (run_events st0 pre).sms_timestamps)
  have h2 := hM.2
  rw [hconfig.1] at h2
  omega

/-- C2: on every admission check over a time-ordered window, all recorded
timestamps strictly older than `now - rate_window` are first evicted; the
check admits iff the remaining count is strictly below `rate_limit`; and a
refusal returns wait time `(oldest + rate_window) - now` clamped to `>= 0`. -/
theorem check_rate_limit_spec (now : ℚ) (st : SenderState)
    (hs : List.Pairwise (· ≤ ·) st.sms_timestamps) :
    (check_rate_limit now st).2.sms_timestamps
        = st.sms_timestamps.filter (fun x => decide (now - st.rate_window ≤ x))
    ∧ ((∃ w, (check_rate_limit now st).1 = some (true, w))
        ↔ ((check_rate_limit now st).2.sms_timestamps.length : ℤ) < st.rate_limit)
    ∧ (∀ w, (check_rate_limit now st).1 = some (false, w) →
        ∃ oldest rest, (check_rate_limit now st).2.sms_timestamps = oldest :: rest
          ∧ w = max 0 (oldest + st.rate_window - now)) := by
  have hsnd := check_rate_limit_snd now st
  have hts : (check_rate_limit now st).2.sms_timestamps
      = evict_old (now - st.rate_window) st.sms_timestamps := by rw [hsnd]
  refine ⟨?_, ?_, ?_⟩
  · rw [hts]
    exact evict_old_sorted (now - st.rate_window) st.sms_timestamps hs
  · constructor
    · rintro ⟨w, hw⟩
      rw [hts]
      exact (check_fst_true now st w hw).2
    · intro hlt
      rw [hts] at hlt
      exact ⟨0, check_fst_of_lt now st hlt⟩
  · intro w hw
    obtain ⟨_, oldest, rest, hE, hweq⟩ := check_fst_false now st w hw
    refine ⟨oldest, rest, ?_, hweq⟩
    rw [hts, hE]

/-- C5 (amended): construction performs no validation: any `rate_window`,
including a non-positive one, is accepted and stored unchanged, with an empty
initial window. -/
theorem init_sms_sender_stores_window (l : ℤ) (w now : ℚ) :
    (init_sms_sender l w now).rate_window = w
    ∧ (init_sms_sender l w now).rate_limit = l
    ∧ (init_sms_sender l w now).sms_timestamps = [] :=
  ⟨rfl, rfl, rfl⟩

/-- C5 counterexample: constructing the sender with `rate_window = -1`
succeeds and yields a limiter instance whose window is non-positive, so a
non-positive window is not rejected at construction time. -/
theorem init_accepts_nonpositive_window :
    (init_sms_sender 500 (-1) 0).rate_window = -1
    ∧ (init_sms_sender 500 (-1) 0).rate_window ≤ 0 := by
  refine ⟨rfl, ?_⟩
  show (-1 : ℚ) ≤ 0
  norm_num

/-- C4 counterexample: with `rate_limit = 0` the very first admission check,
made while the window holds no recorded timestamps, returns no result at all
(`IndexError` from reading `sms_timestamps[0]` of an empty deque), and the
send request escapes with that exception instead of resolving as
rate-limited. -/
theorem empty_window_check_raises :
    (check_rate_limit 100 (init_sms_sender 0 30 0)).1 = none
    ∧ send_single_sms "x" "m" none true (some 0) TransportOutcome.success [100]
        (init_sms_sender 0 30 0) = SendOutcome.exn (init_sms_sender 0 30 0) :=
  ⟨rfl, rfl⟩

/-- Witness for C1 at a concrete admitted check followed by a record. -/
theorem admit_then_record_bounded_witness :
    (check_rate_limit 10 (run_events (init_sms_sender 2 60 0) [])).1 = some (true, 0)
    ∧ (count_window 11 (init_sms_sender 2 60 0).rate_window
        (run_events (init_sms_sender 2 60 0)
          ([] ++ [RateEvent.check 10, RateEvent.record 11])).sms_timestamps : ℤ)
        ≤ (init_sms_sender 2 60 0).rate_limit :=
  ⟨rfl, admit_then_record_bounded (init_sms_sender 2 60 0) [] 10 11 0 rfl⟩

/-- Witness for C2 on a concrete sorted two-element window over its limit. -/
theorem check_rate_limit_spec_witness :
    (check_rate_limit 5 demo_sorted_state).2.sms_timestamps
        = demo_sorted_state.sms_timestamps.filter
            (fun x => decide ((5 : ℚ) - demo_sorted_state.rate_window ≤ x))
    ∧ ((∃ w, (check_rate_limit 5 demo_sorted_state).1 = some (true, w))
        ↔ ((check_rate_limit 5 demo_sorted_state).2.sms_timestamps.length : ℤ)
            < demo_sorted_state.rate_limit)
    ∧ (∀ w, (check_rate_limit 5 demo_sorted_state).1 = some (false, w) →
        ∃ oldest rest, (check_rate_limit 5 demo_sorted_state).2.sms_timestamps = oldest :: rest
          ∧ w = max 0 (oldest + demo_sorted_state.rate_window - 5)) :=
  check_rate_limit_spec 5 demo_sorted_state (by decide)

/-- Witness for C3 on a concrete admitted, successful send. -/
theorem send_quota_iff_success_witness :
    (demo_sent_result.status = SmsStatus.sent →
      TransportOutcome.success = TransportOutcome.success ∧
      ∃ E t, E <:+ (init_sms_sender 5 60 0).sms_timestamps
        ∧ demo_sent_state.sms_timestamps = E ++ [t]
        ∧ demo_sent_result.rate_count = some demo_sent_state.sms_timestamps.length)
    ∧ (demo_sent_result.status ≠ SmsStatus.sent →
        demo_sent_state.sms_timestamps <:+ (init_sms_sender 5 60 0).sms_timestamps) :=
  send_quota_iff_success "n" "m" none none TransportOutcome.success [1, 2, 3, 4]
    (init_sms_sender 5 60 0) demo_sent_result demo_sent_state rfl

/-- Witness for C4 at a concrete `rate_limit = 0` sender. -/
theorem nonpos_limit_never_sends_witness :
    (∀ now w, (check_rate_limit now (init_sms_sender 0 30 0)).1 ≠ some (true, w))
    ∧ (∀ r st', send_single_sms "x" "m" none true (some 0) TransportOutcome.success [100]
        (init_sms_sender 0 30 0) = .ok r st' → r.status = SmsStatus.rateLimited) :=
  nonpos_limit_never_sends "x" "m" none (some 0) TransportOutcome.success [100]
    (init_sms_sender 0 30 0) (by decide)

/-- Witness for C10 on a concrete successful send with rate limiting off. -/
theorem no_rate_interaction_when_disabled_witness :
    demo_norate_result.status ≠ SmsStatus.rateLimited
    ∧ demo_norate_state.sms_timestamps = (init_sms_sender 5 60 0).sms_timestamps :=
  (no_rate_interaction_when_disabled "n" "m" none none TransportOutcome.success [1, 2]
    (init_sms_sender 5 60 0)).1 demo_norate_result demo_norate_state rfl

/-- The normalization loop never succeeds when some entry is invalid. -/
theorem normalize_no_ok_of_invalid (message : Option String) :
    ∀ rs : List Recipient, (∃ r ∈ rs, entry_invalid message r = true) →
    ∀ i processed, normalize_from message i rs ≠ .ok processed := by
  intro rs
  induction rs with
  | nil => rintro ⟨r, hr, _⟩; cases hr
  | cons a t ih =>
    rintro ⟨r, hr, hinv⟩ i processed h
    rcases List.mem_cons.mp hr with rfl | hrt
    · cases r with
      | str s =>
        have hm : truthy_str message = false := by simpa [entry_invalid] using hinv
        simp [normalize_from, hm] at h
      | obj tn msg =>
        simp only [entry_invalid, Bool.or_eq_true, Bool.and_eq_true,
          Bool.not_eq_true'] at hinv
        rcases hinv with h1 | ⟨h2, h3⟩
        · simp [normalize_from, h1] at h
        · by_cases hto : truthy_str tn = true
          · simp [normalize_from, hto, h2, h3] at h
          · rw [Bool.not_eq_true] at hto
            simp [normalize_from, hto] at h
      | other => simp [normalize_from] at h
    · have hne := ih ⟨r, hrt, hinv⟩ (i + 1)
      cases a with
      | str s =>
        by_cases hm : truthy_str message = true
        · rcases hrec : normalize_from message (i + 1) t with e1 | tail1
          · simp [normalize_from, hm, hrec] at h
          · exact hne tail1 hrec
        · rw [Bool.not_eq_true] at hm
          simp [normalize_from, hm] at h
      | obj tn msg =>
        by_cases hto : truthy_str tn = true
        · by_cases hmsg : truthy_str msg = true
          · rcases hrec : normalize_from message (i + 1) t with e1 | tail1
            · simp [normalize_from, hto, hmsg, hrec] at h
            · exact hne tail1 hrec
          · rw [Bool.not_eq_true] at hmsg
            by_cases hm : truthy_str message = true
            · rcases hrec : normalize_from message (i + 1) t with e1 | tail1
              · simp [normalize_from, hto, hmsg, hm, hrec] at h
              · exact hne tail1 hrec
            · rw [Bool.not_eq_true] at hm
              simp [normalize_from, hto, hmsg, hm] at h
        · rw [Bool.not_eq_true] at hto
          simp [normalize_from, hto] at h
      | other => simp [normalize_from] at h

/-- Bulk dispatch produces exactly one result per normalized entry. -/
theorem dispatch_from_length (behave : ℕ → EntryBehavior) :
    ∀ (i : ℕ) (ps : List (String × String)),
      (dispatch_from behave i ps).length = ps.length := by
  intro i ps
  induction ps generalizing i with
  | nil => rfl
  | cons p rest ih => simp [dispatch_from, ih]

/-- Every per-item bulk result is `sent` or `error` (a fault while retrieving
the future's result is folded in as `error`). -/
theorem bulk_item_status (tn m : String) (b : EntryBehavior) :
    (bulk_item_result tn m b).status = SmsStatus.sent
    ∨ (bulk_item_result tn m b).status = SmsStatus.error := by
  cases b with
  | runs t s e => cases t <;> simp [bulk_item_result, api_send_single_sms]
  | futureFault m => exact Or.inr rfl

/-- Every collected bulk result is `sent` or `error`. -/
theorem dispatch_from_status (behave : ℕ → EntryBehavior) :
    ∀ (i : ℕ) (ps : List (String × String)) (r : ApiResult),
      r ∈ dispatch_from behave i ps →
      r.status = SmsStatus.sent ∨ r.status = SmsStatus.error := by
  intro i ps
  induction ps generalizing i with
  | nil => intro r hr; cases hr
  | cons p rest ih =>
    intro r hr
    rcases List.mem_cons.mp hr with rfl | hrt
    · exact bulk_item_status p.1 p.2 (behave i)
    · exact ih (i + 1) r hrt

/-- The normalization loop, reaching the first invalid entry after a prefix of
valid ones, fails with exactly the indexed error message of that entry. -/
theorem normalize_first_invalid (message : Option String) (r : Recipient)
    (post : List Recipient) (hinv : entry_invalid message r = true) :
    ∀ pre : List Recipient, (∀ p ∈ pre, entry_invalid message p = false) →
    ∀ i, normalize_from message i (pre ++ r :: post)
        = .error (entry_error (i + pre.length) r) := by
  intro pre
  induction pre with
  | nil =>
    intro _ i
    cases r with
    | str st2 =>
      have hm : truthy_str message = false := by simpa [entry_invalid] using hinv
      simp [normalize_from, entry_error, hm]
    | obj tn msg =>
      simp only [entry_invalid, Bool.or_eq_true, Bool.and_eq_true,
        Bool.not_eq_true'] at hinv
      rcases hinv with h1 | ⟨h2, h3⟩
      · simp [normalize_from, entry_error, h1]
      · cases hto : truthy_str tn with
        | false => simp [normalize_from, entry_error, hto]
        | true => simp [normalize_from, entry_error, hto, h2, h3]
    | other => simp [normalize_from, entry_error]
  | cons p pre1 ih =>
    intro hvalid i
    have hpv : entry_invalid message p = false := hvalid p (List.mem_cons_self p pre1)
    have hrec := ih (fun q hq => hvalid q (List.mem_cons_of_mem p hq)) (i + 1)
    have hidx : i + (p :: pre1).length = i + 1 + pre1.length := by
      simp [List.length_cons]
      omega
    rw [hidx, List.cons_append]
    cases p with
    | str st2 =>
      have hm : truthy_str message = true := by
        cases hmm : truthy_str message with
        | true => rfl
        | false => simp [entry_invalid, hmm] at hpv
      simp [normalize_from, hm, hrec]
    | obj tn msg =>
      cases hto : truthy_str tn with
      | false => simp [entry_invalid, hto] at hpv
      | true =>
        cases hmsg : truthy_str msg with
        | true => simp [normalize_from, hto, hmsg, hrec]
        | false =>
          have hm : truthy_str message = true := by
            cases hmm : truthy_str message with
            | true => rfl
            | false => simp [entry_invalid, hto, hmsg, hmm] at hpv
          simp [normalize_from, hto, hmsg, hm, hrec]
    | other => simp [entry_invalid] at hpv

/-- C6: bulk normalization is all-or-nothing and the error identifies the
offending entry: a batch whose first invalid entry (bare string without
fallback body, structured entry without destination, structured entry without
body when no fallback exists, or an entry of another type) sits at index
`pre.length` makes the whole call return the single indexed
validation error of that entry (`... recipients[pre.length] ...`) and dispatch nothing; an
absent, empty or non-list `recipients` input is likewise rejected outright
with its own single error. -/
theorem bulk_all_or_nothing (pre post : List Recipient) (r : Recipient)
    (message : Option String) (behave : ℕ → EntryBehavior)
    (hvalid : ∀ p ∈ pre, entry_invalid message p = false)
    (hinv : entry_invalid message r = true) :
    send_bulk_sms (RecipientsField.aList (pre ++ r :: post)) message behave
        = Except.error (entry_error pre.length r)
    ∧ send_bulk_sms RecipientsField.missing message behave
        = Except.error "Campo \x27recipients\x27 é obrigatório"
    ∧ send_bulk_sms (RecipientsField.aList []) message behave
        = Except.error "Campo \x27recipients\x27 é obrigatório"
    ∧ send_bulk_sms (RecipientsField.notAList true) message behave
        = Except.error "Campo \x27recipients\x27 deve ser uma lista" := by
  refine ⟨?_, rfl, rfl, rfl⟩
  have hn := normalize_first_invalid message r post hinv pre hvalid 0
  rw [Nat.zero_add] at hn
  have htr : truthy_recipients (RecipientsField.aList (pre ++ r :: post)) = true := by
    cases pre <;> rfl
  simp [send_bulk_sms, htr, hn]

/-- C7: every bulk call that passes normalization returns exactly one
per-item outcome per normalized entry with `sent + errors = total`, for every
batch composition, and each entry independently resolves to `sent` or
`error` (future faults included), never cancelling siblings. -/
theorem bulk_aggregate_invariant (rs : List Recipient) (message : Option String)
    (behave : ℕ → EntryBehavior) (resp : BulkResponse)
    (h : send_bulk_sms (RecipientsField.aList rs) message behave = Except.ok resp) :
    resp.sent + resp.errors = resp.total
    ∧ resp.results.length = resp.total
    ∧ (∀ r ∈ resp.results, r.status = SmsStatus.sent ∨ r.status = SmsStatus.error) := by
  simp only [send_bulk_sms] at h
  by_cases htr : truthy_recipients (RecipientsField.aList rs) = true
  case neg =>
    rw [Bool.not_eq_true] at htr
    simp [htr] at h
  case pos =>
    simp only [htr, if_true] at h
    rcases hn : normalize_from message 0 rs with e | processed
    · rw [hn] at h
      simp at h
    · rw [hn] at h
      by_cases hemp : processed.isEmpty = true
      · simp [hemp] at h
      · rw [Bool.not_eq_true] at hemp
        simp only [hemp, Bool.false_eq_true, if_false, Except.ok.injEq] at h
        subst h
        have hlen := dispatch_from_length behave 0 processed
        have hfle := List.length_filter_le
          (fun r => decide (r.status = SmsStatus.sent)) (dispatch_from behave 0 processed)
        refine ⟨?_, hlen, ?_⟩
        · simp only
          omega
        · intro r hr
          exact dispatch_from_status behave 0 processed r hr

/-- Witness for C6 on a batch whose valid first entry precedes a structured
entry with no destination: the error names index 1. -/
theorem bulk_all_or_nothing_witness :
    send_bulk_sms (RecipientsField.aList
          ([Recipient.str "A"] ++ Recipient.obj none none :: []))
        (some "d") (fun _ => EntryBehavior.futureFault "boom")
        = Except.error (entry_error [Recipient.str "A"].length (Recipient.obj none none))
    ∧ send_bulk_sms RecipientsField.missing (some "d") (fun _ => EntryBehavior.futureFault "boom")
        = Except.error "Campo \x27recipients\x27 é obrigatório"
    ∧ send_bulk_sms (RecipientsField.aList []) (some "d") (fun _ => EntryBehavior.futureFault "boom")
        = Except.error "Campo \x27recipients\x27 é obrigatório"
    ∧ send_bulk_sms (RecipientsField.notAList true) (some "d") (fun _ => EntryBehavior.futureFault "boom")
        = Except.error "Campo \x27recipients\x27 deve ser uma lista" :=
  bulk_all_or_nothing [Recipient.str "A"] [] (Recipient.obj none none) (some "d")
    (fun _ => EntryBehavior.futureFault "boom") (by decide) rfl

/-- Witness for C7 on a concrete all-success batch. -/
theorem bulk_aggregate_invariant_witness :
    demo_bulk_response.sent + demo_bulk_response.errors = demo_bulk_response.total
    ∧ demo_bulk_response.results.length = demo_bulk_response.total
    ∧ (∀ r ∈ demo_bulk_response.results,
        r.status = SmsStatus.sent ∨ r.status = SmsStatus.error) :=
  bulk_aggregate_invariant [Recipient.str "A"] (some "hello")
    (fun _ => EntryBehavior.runs TransportOutcome.success 0 0) demo_bulk_response rfl

/-- C8: pruning removes exactly the stored entries whose timestamp parses
older than the cutoff or fails to parse, retains every entry at least as
young as the cutoff, and touches no other entries. -/
theorem clear_old_status_spec (now maxh : ℚ) (m : List (String × Option ℚ)) :
    (∀ i, (i, (none : Option ℚ)) ∉ clear_old_status now maxh m)
    ∧ (∀ i t, (i, some t) ∈ m → t < now - maxh * 3600 →
        (i, some t) ∉ clear_old_status now maxh m)
    ∧ (∀ i t, (i, some t) ∈ m → ¬ t < now - maxh * 3600 →
        (i, some t) ∈ clear_old_status now maxh m)
    ∧ (∀ e ∈ clear_old_status now maxh m, e ∈ m) := by
  refine ⟨?_, ?_, ?_, ?_⟩
  · intro i hmem
    have := (List.mem_filter.mp hmem).2
    simp at this
  · intro i t hm hlt hmem
    have := (List.mem_filter.mp hmem).2
    simp only [Bool.not_eq_true', decide_eq_false_iff_not, not_not] at this
    simp at this
    exact absurd hlt (by simpa using this)
  · intro i t hm hnlt
    refine List.mem_filter.mpr ⟨hm, ?_⟩
    simpa using hnlt
  · intro e he
    exact (List.mem_filter.mp he).1

/-- Witness for C8 on a store with an old, an unparseable and a young
entry. -/
theorem clear_old_status_spec_witness :
    ("b", (none : Option ℚ)) ∉ clear_old_status 90000 24
        [("a", some 0), ("b", none), ("c", some 5000)]
    ∧ ("a", some (0 : ℚ)) ∉ clear_old_status 90000 24
        [("a", some 0), ("b", none), ("c", some 5000)]
    ∧ ("c", some (5000 : ℚ)) ∈ clear_old_status 90000 24
        [("a", some 0), ("b", none), ("c", some 5000)] :=
  ⟨(clear_old_status_spec 90000 24 [("a", some 0), ("b", none), ("c", some 5000)]).1 "b",
   (clear_old_status_spec 90000 24 [("a", some 0), ("b", none), ("c", some 5000)]).2.1
     "a" 0 (by simp) (by norm_num),
   (clear_old_status_spec 90000 24 [("a", some 0), ("b", none), ("c", some 5000)]).2.2.1
     "c" 5000 (by simp) (by norm_num)⟩

/-- Rounding zero to two decimals gives zero. -/
theorem py_round_2_zero : py_round_2 0 = 0 := by
  norm_num [py_round_2, round_half_even]

/-- C9 (amended): the stats view computes `success_rate` as
`total_sent / (total_sent + total_errors + rate_limited) * 100` rounded to two
decimals and zero when the denominator is zero, and `avg_sms_per_minute` as
`total_sent / (uptime/60)` rounded to two decimals and zero when the uptime is
not positive. -/
theorem get_stats_spec (now : ℚ) (st : SenderState) :
    (get_stats now st).total_requests = st.total_sent + st.total_errors + st.rate_limited
    ∧ ((get_stats now st).total_requests = 0 → (get_stats now st).success_rate = 0)
    ∧ (0 < (get_stats now st).total_requests →
        (get_stats now st).success_rate
          = py_round_2 ((st.total_sent : ℚ)
              / ((st.total_sent + st.total_errors + st.rate_limited : ℕ) : ℚ) * 100))
    ∧ (now - st.start_time ≤ 0 → (get_stats now st).avg_sms_per_minute = 0)
    ∧ (0 < now - st.start_time →
        (get_stats now st).avg_sms_per_minute
          = py_round_2 ((st.total_sent : ℚ) / ((now - st.start_time) / 60))) := by
  refine ⟨rfl, ?_, ?_, ?_, ?_⟩
  · intro h0
    have h0' : st.total_sent + st.total_errors + st.rate_limited = 0 := h0
    simp only [get_stats, h0', if_neg (lt_irrefl 0)]
    exact py_round_2_zero
  · intro hpos
    have hpos' : 0 < st.total_sent + st.total_errors + st.rate_limited := hpos
    simp only [get_stats, if_pos hpos']
  · intro hle
    simp only [get_stats, if_neg (not_lt.mpr hle)]
    exact py_round_2_zero
  · intro hpos
    simp only [get_stats, if_pos hpos]

/-- C9 counterexample: with one sent and two errors the returned success rate
is the rounded `33.33`, not the exact ratio `100/3` the claim's formula
gives. -/
theorem success_rate_is_rounded :
    (get_stats 0 { init_sms_sender 500 30 0 with
        total_sent := 1, total_errors := 2 }).success_rate = 3333 / 100
    ∧ ((3333 : ℚ) / 100
        ≠ ((1 : ℚ) / ((1 + 2 + 0 : ℕ) : ℚ)) * 100) := by
  constructor
  · norm_num [get_stats, init_sms_sender, py_round_2, round_half_even]
  · norm_num

/-- Witness for C9 on a fresh sender with zero counters and zero uptime. -/
theorem get_stats_spec_witness :
    (get_stats 0 (init_sms_sender 500 30 0)).total_requests = 0 + 0 + 0
    ∧ (get_stats 0 (init_sms_sender 500 30 0)).success_rate = 0
    ∧ (get_stats 0 (init_sms_sender 500 30 0)).avg_sms_per_minute = 0 :=
  ⟨(get_stats_spec 0 (init_sms_sender 500 30 0)).1,
   (get_stats_spec 0 (init_sms_sender 500 30 0)).2.1 rfl,
   (get_stats_spec 0 (init_sms_sender 500 30 0)).2.2.2.1 (by simp [init_sms_sender])⟩

end SmsSender
